import Mathlib

/-!
# Verification of the guest-memory subsystem (`vm.cpp`)

Shallow embedding of `src/rpcs3/Emu/Memory/vm.cpp`.  Guest addresses and
sizes are 32-bit unsigned integers, modelled as `Nat` with explicit
`% 2^32` where the C code can wrap.  Page-table bytes are `u8`, modelled
as `Nat` (reachable states keep them below 256).  Fallible operations
(C++ `throw`) return `Except Unit`.  Host-OS protection calls
(`mprotect` / `VirtualProtect`) only act on the host views, never on the
modelled state, and are assumed to succeed; they are therefore omitted.
Guest memory is one byte-addressed array shared by the public and the
privileged view (both views map the same backing object).
-/

namespace VMSpec

/-- `2^32`, the size of the guest address space. -/
def U32 : Nat := 4294967296

/-- Truncation to 32 bits, modelling `u32` wraparound. -/
def u32 (n : Nat) : Nat := n % U32

/-- 32-bit bitwise complement `~x` of a value `x < 2^32`
(`0xFFFFFFFF - x` equals `~x` because subtracting from all-ones never
borrows). -/
def u32not (x : Nat) : Nat := 4294967295 - x

/-- Largest power of two that is `≤ n` (0 for `n = 0`), over the 32-bit
range.  Models the C expression `0x80000000ull >> cntlz32(n)` used by
the argument checks of the reservation and waiter operations. -/
def floorPow2 (n : Nat) : Nat :=
  (List.range 33).foldl (fun acc k => if 2^k ≤ n then 2^k else acc) 0

/-- The common argument check of `reservation_acquire/update/op` and
`notify_at`/`_add_waiter`:
`!size || !addr || size > 4096 || size != align || addr & (align - 1)`
throws; `vmArgsOk` is true when none of those conditions hold. -/
def vmArgsOk (addr size : Nat) : Bool :=
  !(size == 0 || addr == 0 || size > 4096 || size != floorPow2 size
    || (addr &&& (floorPow2 size - 1)) != 0)

/-! ## Page table (`g_pages`) -/

/-- Page flag bits.  The numeric values come from the memory header
(declared outside `vm.cpp`); the theorems below depend only on the bits
being distinct, with `page_allocated` the one tested by `check_addr`. -/
def page_readable : Nat := 1

def page_writable : Nat := 2

def page_no_reservations : Nat := 16

def page_allocated : Nat := 128

/-- The page table: one byte per 4 KiB page (`g_pages`). -/
abbrev Pages := Nat → Nat

/-- Write one page-table byte. -/
def setP (p : Pages) (i v : Nat) : Pages := fun j => if j = i then v else p j

/-! ## Reservation state -/

/-- The global reservation `{g_reservation_addr, g_reservation_size,
g_reservation_owner}`.  `owner = none` models the null thread pointer. -/
structure ResState where
  raddr : Nat
  rsize : Nat
  owner : Option Nat
  deriving DecidableEq

/-- The idle reservation state. -/
def resIdle : ResState := ⟨0, 0, none⟩

/-- `_reservation_break(addr)`: if the reservation lies on the same
4 KiB page as `addr`, restore the page protection (host-side, not
modelled) and clear the reservation state; returns whether it fired. -/
def _reservation_break (addr : Nat) (r : ResState) : Bool × ResState :=
  if r.raddr / 4096 = addr / 4096 then (true, resIdle) else (false, r)

/-! ## Combined state for the reservation operations -/

/-- Guest memory, byte addressed. -/
abbrev Mem := Nat → Nat

/-- The global state touched by the reservation engine: the page table,
guest memory (one backing object behind both host views) and the
reservation triple.  The waiter list is disjoint state; `_notify_at`
only reads memory and mutates waiter records, so it is modelled
separately (see `try_notify`). -/
structure VState where
  pages : Pages
  mem : Mem
  res : ResState

/-- `memcpy(dst + addr, src, size)` into guest memory: bytes
`[addr, addr+size)` are replaced by `src[0..size)`. -/
def memcpyBytes (mem : Mem) (addr : Nat) (src : Nat → Nat) (size : Nat) : Mem :=
  fun a => if addr ≤ a ∧ a < addr + size then src (a - addr) else mem a

/-- `check_addr(addr, size)` (the `assert(size)` precondition is kept as
a hypothesis of the theorems): false on 32-bit overflow of
`addr + (size - 1)`, otherwise true iff every page from `addr / 4096` to
`(addr + size - 1) / 4096` has `page_allocated` set. -/
def check_addr (addr size : Nat) (pages : Pages) : Bool :=
  if u32 (addr + (size - 1)) < addr then
    false
  else
    (List.range' (addr / 4096) ((addr + size - 1) / 4096 + 1 - addr / 4096)).all
      fun i => (pages i &&& page_allocated) == page_allocated

/-- `reservation_update(addr, data, size)` for the calling thread
`current`: throws on invalid arguments; returns false (state untouched)
unless the reservation is exactly `{current, addr, size}`; otherwise
protects the page no-access (host-side), copies `src` through the
privileged view, breaks the reservation and returns true.
(`_notify_at` is then called on the waiter list, which this state does
not contain.) -/
def reservation_update (current : Nat) (addr : Nat) (src : Nat → Nat) (size : Nat)
    (st : VState) : Except Unit (Bool × VState) :=
  if !vmArgsOk addr size then
    .error ()
  else if st.res.owner ≠ some current ∨ st.res.raddr ≠ addr ∨ st.res.rsize ≠ size then
    -- atomic update failed
    .ok (false, st)
  else
    .ok (true,
      { st with
        mem := memcpyBytes st.mem addr src size
        res := (_reservation_break addr st.res).2 })

/-- `reservation_op(addr, size, proc)` for thread `current`.  `proc`
runs under the mutex and acts on guest memory through the privileged
view; it is modelled as a memory transformer.  Returns the final state
and the value of the thread-local `g_tls_did_break_reservation` flag. -/
def reservation_op (current : Nat) (addr size : Nat) (proc : Mem → Mem)
    (st : VState) : Except Unit (VState × Bool) :=
  if !vmArgsOk addr size then
    .error ()
  else
    -- g_tls_did_break_reservation = false
    -- check and possibly break previous reservation; the break in the
    -- mismatch branch (fired only when an owner exists) restores host
    -- protection and clears a state that the lines below overwrite, so
    -- only the flag it leaves behind is observable here
    let mismatch : Bool :=
      st.res.owner != some current || st.res.raddr != addr || st.res.rsize != size
    let didBreak : Bool := mismatch
    -- protect no-access (host-side), set the reservation, run proc,
    -- then break the reservation (and notify waiters, not in VState)
    let res2 : ResState := { raddr := addr, rsize := size, owner := some current }
    let mem2 : Mem := proc st.mem
    .ok ({ st with mem := mem2, res := (_reservation_break addr res2).2 }, didBreak)

/-- `reservation_query(addr, size, is_writing, callback)`.  The call
site passes the default `size = 1` to `check_addr`, i.e. it checks the
page containing `addr`.  The callback is modelled by the boolean it
would return; the middle component of the result records whether it was
invoked. -/
def reservation_query (addr size : Nat) (is_writing : Bool) (cb : Bool)
    (st : VState) : Bool × Bool × VState :=
  if !check_addr addr 1 st.pages then
    (false, false, st)
  else if st.res.raddr / 4096 = addr / 4096 ∧ is_writing then
    if cb ∧ size ≠ 0 ∧ u32 (addr + size - 1) ≥ st.res.raddr
        ∧ u32 (st.res.raddr + st.res.rsize + (U32 - 1)) ≥ addr then
      (cb, true, { st with res := (_reservation_break addr st.res).2 })
    else
      (cb, true, st)
  else
    (true, false, st)

/-! ## `page_protect` -/

/-- The per-byte flag update performed by `page_protect` on every
covered page: with `inv = set & clear`,
`or (set & ~inv)`, then `and-not (clear & ~inv)`, then `xor inv`.
Page bytes are `u8`, so the C complement `~m` acts as `255 ^^^ m`. -/
def protectByte (set clear old : Nat) : Nat :=
  let inv := set &&& clear
  ((old ||| (set &&& (255 ^^^ inv))) &&& (255 ^^^ (clear &&& (255 ^^^ inv)))) ^^^ inv

/-- One iteration of `page_protect`'s mutation loop: break any
reservation on the page, then rewrite its byte. -/
def protectStep (set clear : Nat) (pr : Pages × ResState) (i : Nat) : Pages × ResState :=
  (setP pr.1 i (protectByte set clear (pr.1 i)), (_reservation_break (i * 4096) pr.2).2)

/-- The transactional scan of `page_protect`: some covered page fails
`(flags & (flags_test | page_allocated)) == (flags_test |
page_allocated)` (the code ORs `page_allocated` into `flags_test`
before the loop). -/
def pagesFailTest (addr size test : Nat) (pages : Pages) : Bool :=
  (List.range' (addr / 4096) (size / 4096)).any
    fun i => (pages i &&& (test ||| page_allocated)) != (test ||| page_allocated)

/-- `page_protect(addr, size, flags_test, flags_set, flags_clear)`
(the `assert(size && (size | addr) % 4096 == 0)` precondition is kept as
a hypothesis of the theorems).  If the scan fails, no-op returning
false; a pure query (`set = clear = 0`) returns early; otherwise every
covered page goes through `protectStep` (host-protection updates when
the effective public protection changes are host-side only). -/
def page_protect (addr size test set clear : Nat) (st : VState) : Bool × VState :=
  if pagesFailTest addr size test st.pages then
    (false, st)
  else if (set &&& clear) == 0 && set == 0 && clear == 0 then
    (true, st)
  else
    (true,
      { st with
        pages := ((List.range' (addr / 4096) (size / 4096)).foldl
          (protectStep set clear) (st.pages, st.res)).1
        res := ((List.range' (addr / 4096) (size / 4096)).foldl
          (protectStep set clear) (st.pages, st.res)).2 })

/-! ## Waiter records -/

/-- One slot of `g_waiter_list`.  `thread = none` models a null thread
pointer (a free slot).  The predicate is modelled by the outcome of
calling it: `some (.ok b)` returns `b`, `some (.error e)` throws `e`,
`none` is the null predicate. -/
structure waiter_t where
  thread : Option Nat
  addr : Nat
  mask : Nat
  pred : Option (Except Nat Bool)

/-- `waiter_t::try_notify` (under the per-thread mutex): evaluate the
predicate; an exception is captured and a predicate rethrowing it is
installed in its place; on `true` the predicate is cleared.  In both
returning-true branches `addr`/`mask` are set to the inert values `0` /
`~0` and the thread is signalled. -/
def try_notify (w : waiter_t) : waiter_t × Bool :=
  match w.pred with
  | none => (w, false)
  | some (.ok false) => (w, false)
  | some (.ok true) =>
    ({ w with pred := none, addr := 0, mask := 4294967295 }, true)
  | some (.error e) =>
    ({ w with pred := some (.error e), addr := 0, mask := 4294967295 }, true)

/-- The candidate test of `_notify_at(addr, size)` for one waiter slot:
`waiter.thread && ((waiter.addr ^ addr) & (mask & waiter.mask)) == 0`
with `mask = ~(size - 1)`.  A live waiter's own `mask` field was set to
`~(w_size - 1)` at registration (`waiter_t::reset`, declared in the
header; the registration rule is stated in the spec). -/
def notifyMatch (w : waiter_t) (addr size : Nat) : Bool :=
  w.thread.isSome && ((w.addr ^^^ addr) &&& (u32not (size - 1) &&& w.mask)) == 0

/-! ## Block allocator (`block_t`) -/

/-- The mutable per-block state: `used` bytes and the live-allocation
map `m_map` (association list, keys unique). -/
structure BState where
  used : Nat
  mmap : List (Nat × Nat)
  deriving DecidableEq

/-- Pages `[addr/4096, addr/4096 + size/4096)` (the exclusive loop
bound used by `_page_map`, `_page_unmap` and `page_protect`). -/
def pageRange (addr size : Nat) : List Nat :=
  List.range' (addr / 4096) (size / 4096)

/-- Pages `addr/4096 .. (addr+size-1)/4096` inclusive, the loop bound
of `try_alloc`, with `addr + size - 1` computed in wrapping u32
arithmetic as in the source (`u32 (addr + size + (2^32 - 1))` equals
that wrapped value for every `size`, including 0).  When the wrapped
end falls below `addr/4096` the range is empty, exactly like the
non-executing C loop. -/
def pageRangeIncl (addr size : Nat) : List Nat :=
  List.range' (addr / 4096) (u32 (addr + size + (U32 - 1)) / 4096 + 1 - addr / 4096)

/-- `_page_map(addr, size, flags)`: throws if any covered page byte is
nonzero, else installs `flags | page_allocated` on each covered page.
(The host `mprotect`/commit of both views and the zeroing of the
privileged view act on host memory; the sequential model cannot hit the
concurrent-exchange throw.) -/
def _page_map (addr size flags : Nat) (pages : Pages) : Except Unit Pages :=
  if (pageRange addr size).any (fun i => pages i != 0) then
    .error ()
  else
    .ok ((pageRange addr size).foldl
      (fun p i => setP p i (flags ||| page_allocated)) pages)

/-- `_page_unmap(addr, size)`: throws unless every covered page is
allocated; else per page, breaks any reservation on it and clears the
byte.  (Host protection reset is host-side; the concurrent-exchange
throw cannot fire sequentially.) -/
def _page_unmap (addr size : Nat) (pages : Pages) (res : ResState) :
    Except Unit (Pages × ResState) :=
  if (pageRange addr size).any (fun i => (pages i &&& page_allocated) == 0) then
    .error ()
  else
    .ok ((pageRange addr size).foldl
      (fun (pr : Pages × ResState) i =>
        (setP pr.1 i 0, (_reservation_break (i * 4096) pr.2).2))
      (pages, res))

/-- `m_map[addr] = size` (`std::map::operator[]`: insert or replace). -/
def mapInsert (a s : Nat) (m : List (Nat × Nat)) : List (Nat × Nat) :=
  (a, s) :: m.filter (fun e => e.1 != a)

/-- `m_map.find(addr)`. -/
def mapFind (a : Nat) (m : List (Nat × Nat)) : Option Nat :=
  (m.find? (fun e => e.1 == a)).map (·.2)

/-- `m_map.erase(found)`. -/
def mapErase (a : Nat) (m : List (Nat × Nat)) : List (Nat × Nat) :=
  m.filter (fun e => e.1 != a)

/-- `block_t::try_alloc(addr, size)` on a block `[baddr, baddr+bsize)`:
all covered pages must read zero, the u32 sum `used + size` must not
exceed the block size (`used > bsize` is the "unexpected memory
amount" throw; both the comparison and the `used += size` increment
wrap at 2^32 as in the source), then `_page_map` with
readable+writable and the map entry.  Every failure path leaves
`pages` and the block state untouched. -/
def block_t.try_alloc (baddr bsize addr size : Nat) (pages : Pages) (bs : BState) :
    Except Unit (Bool × Pages × BState) :=
  let _ := baddr
  if (pageRangeIncl addr size).any (fun i => pages i != 0) then
    .ok (false, pages, bs)
  else if bs.used > bsize then
    .error ()
  else if u32 (bs.used + size) > bsize then
    .ok (false, pages, bs)
  else
    match _page_map addr size (page_readable ||| page_writable) pages with
    | .error e => .error e
    | .ok pages' => .ok (true, pages', ⟨u32 (bs.used + size), mapInsert addr size bs.mmap⟩)

/-- `::align(value, align)`: `(value + (align - 1)) & ~(align - 1)`
computed in `u64` and truncated to `u32`; `~(align - 1)` over 64 bits is
`2^64 - align` (for `align ≥ 1`). -/
def alignUp (v a : Nat) : Nat := u32 ((v + (a - 1)) &&& (18446744073709551616 - a))

/-- The scan loop of `block_t::alloc`: candidates start at
`align(baddr, align)` and step by `align` with `u32` wraparound, while
`candidate < baddr + bsize - 1` (u32).  The first argument counts the
remaining untried candidates: after `2^32 / align` steps the scan has
wrapped back to its start with unchanged state, so the C loop revisits
identical candidates forever; `none` models that divergence. -/
def allocLoop (baddr bsize size align : Nat) :
    Nat → Nat → Pages → BState → Except Unit (Option (Nat × Pages × BState))
  | 0, _, _, _ => .ok none
  | n + 1, addr, pages, bs =>
    if addr < u32 (baddr + bsize + (U32 - 1)) then
      match block_t.try_alloc baddr bsize addr size pages bs with
      | .error e => .error e
      | .ok (true, p', bs') => .ok (some (addr, p', bs'))
      | .ok (false, p', bs') =>
        if u32 (bs'.used + size) > bsize then .ok (some (0, p', bs'))
        else allocLoop baddr bsize size align n (u32 (addr + align)) p' bs'
    else
      .ok (some (0, pages, bs))

/-- `block_t::alloc(size, align)`: page-align `size`, throw unless
`align` is a power of two `≥ 4096`, return 0 for empty/oversized sizes,
else scan. -/
def block_t.alloc (baddr bsize size align : Nat) (pages : Pages) (bs : BState) :
    Except Unit (Option (Nat × Pages × BState)) :=
  let size' := alignUp size 4096
  if align < 4096 || align != floorPow2 align then
    .error ()
  else if size' == 0 || size' > bsize then
    .ok (some (0, pages, bs))
  else
    allocLoop baddr bsize size' align (U32 / align) (alignUp baddr align) pages bs

/-- The early rejection test of `block_t::falloc` on the page-aligned
size: `!size || size > this->size || addr < this->addr ||
addr + size - 1 >= this->addr + this->size - 1` (u32 arithmetic). -/
def fallocRejects (baddr bsize addr size' : Nat) : Bool :=
  size' == 0 || size' > bsize || addr < baddr
    || u32 (addr + size' + (U32 - 1)) ≥ u32 (baddr + bsize + (U32 - 1))

/-- `block_t::falloc(addr, size)`: page-align `size`, reject by
`fallocRejects`, else `try_alloc` at the fixed address. -/
def block_t.falloc (baddr bsize addr size : Nat) (pages : Pages) (bs : BState) :
    Except Unit (Nat × Pages × BState) :=
  let size' := alignUp size 4096
  if fallocRejects baddr bsize addr size' then
    .ok (0, pages, bs)
  else
    match block_t.try_alloc baddr bsize addr size' pages bs with
    | .error e => .error e
    | .ok (true, p', bs') => .ok (addr, p', bs')
    | .ok (false, p', bs') => .ok (0, p', bs')

/-- `block_t::dealloc(addr)`: look up `addr` in `m_map`; if present,
erase it, give back `used` bytes (`used -= size` wraps at 2^32 like
the u32 source) and `_page_unmap` the range. -/
def block_t.dealloc (addr : Nat) (pages : Pages) (bs : BState) (res : ResState) :
    Except Unit (Bool × Pages × BState × ResState) :=
  match mapFind addr bs.mmap with
  | none => .ok (false, pages, bs, res)
  | some size =>
    match _page_unmap addr size pages res with
    | .error e => .error e
    | .ok (p', r') =>
      .ok (true, p', ⟨u32 (bs.used + (U32 - size)), mapErase addr bs.mmap⟩, r')

/-! ## Location registry -/

/-- The immutable identity of one `block_t` in `g_locations`. -/
structure block_ref where
  addr : Nat
  size : Nat
  deriving DecidableEq

/-- The `location == any` branch of `vm::get`: linear search of
`g_locations` by address, condition
`addr >= block->addr && addr <= block->addr + block->size - 1`.
The loop reads `block->addr` without a null check, so reaching a null
slot dereferences a null handle — modelled as `.error ()` (undefined
behavior / crash). -/
def vm_get_any (locs : List (Option block_ref)) (addr : Nat) :
    Except Unit (Option block_ref) :=
  match locs with
  | [] => .ok none
  | some b :: rest =>
    if b.addr ≤ addr ∧ addr ≤ u32 (b.addr + b.size + (U32 - 1)) then .ok (some b)
    else vm_get_any rest addr
  | none :: _ => .error ()

/-- The `g_locations` layout installed by `vm::psv::init`: RAM, user,
then null video and stack slots. -/
def psv_locations : List (Option block_ref) :=
  [some ⟨0x81000000, 0x10000000⟩, some ⟨0x91000000, 0x2F000000⟩, none, none]

/-- Base of the PS3 main block (`ps3::init`). -/
def ps3_main_base : Nat := 0x00010000

/-- Capacity of the PS3 main block (`ps3::init`). -/
def ps3_main_size : Nat := 0x1FFF0000

/-- All-zero page table. -/
def pages0 : Pages := fun _ => 0

/-- Initial combined state: empty page table and memory, idle
reservation. -/
def st0 : VState := ⟨pages0, fun _ => 0, resIdle⟩

/-- A state whose every page byte is `page_allocated | page_readable`
(= 129). -/
def st129 : VState := ⟨fun _ => 129, fun _ => 0, resIdle⟩

/-- Fresh block state. -/
def bs0 : BState := ⟨0, []⟩

/-! ## Supporting lemmas -/

theorem u32_id {a : Nat} (h : a < U32) : u32 a = a := Nat.mod_eq_of_lt h

theorem u32_lt (a : Nat) : u32 a < U32 := Nat.mod_lt _ (by norm_num [U32])

theorem u32_add_left (a b : Nat) : u32 (u32 a + b) = u32 (a + b) := Nat.mod_add_mod a U32 b

theorem mem_range1 {s n m : Nat} : m ∈ List.range' s n ↔ s ≤ m ∧ m < s + n := by
  rw [List.mem_range']
  constructor
  · rintro ⟨i, hi, rfl⟩
    omega
  · intro h
    exact ⟨m - s, by omega, by omega⟩

theorem floorPow2_pow {j : Nat} (h : j ≤ 32) : floorPow2 (2^j) = 2^j := by
  interval_cases j <;> decide

theorem vmArgsOk_of {addr size j : Nat} (hj : j ≤ 12) (hs : size = 2^j)
    (h0 : addr ≠ 0) (hal : addr % size = 0) : vmArgsOk addr size = true := by
  subst hs
  have hfp : floorPow2 (2^j) = 2^j := floorPow2_pow (by omega)
  have hle : (2:Nat)^j ≤ 4096 := by
    calc (2:Nat)^j ≤ 2^12 := Nat.pow_le_pow_right (by norm_num) hj
    _ = 4096 := by norm_num
  have hand : addr &&& (2^j - 1) = 0 := by
    rw [Nat.and_pow_two_sub_one_eq_mod]
    exact hal
  unfold vmArgsOk
  rw [hfp, hand]
  simp [h0, Nat.not_lt.mpr hle, (Nat.two_pow_pos j).ne']

theorem _reservation_break_self (addr : Nat) (size : Nat) (o : Option Nat) :
    _reservation_break addr ⟨addr, size, o⟩ = (true, resIdle) := by
  simp [_reservation_break]

theorem reservation_op_eq (current addr size : Nat) (proc : Mem → Mem) (st : VState)
    (hok : vmArgsOk addr size = true) :
    reservation_op current addr size proc st =
      .ok ({ st with mem := proc st.mem, res := resIdle },
        (st.res.owner != some current || st.res.raddr != addr
          || st.res.rsize != size)) := by
  unfold reservation_op
  rw [hok]
  simp [_reservation_break_self]

/-! ## C1 — `reservation_update` -/

/-- **C1** (amended: the arguments also need `addr ≠ 0`, since the
argument check throws on a zero address before the ownership test).
With `size` a power of two in `[1, 4096]` and `addr` a nonzero
`size`-aligned address, `reservation_update` returns false leaving the
whole state unchanged iff the reservation is not exactly
`{owner = current, base = addr, size}`; when it returns true, the
`size` bytes of `src` have been copied to guest memory at `addr`, the
reservation is idle again and the page table is untouched. -/
theorem C1_reservation_update (current addr size : Nat) (src : Nat → Nat) (st : VState)
    (hpow : ∃ j, j ≤ 12 ∧ size = 2^j) (hal : addr % size = 0) (h0 : addr ≠ 0) :
    (reservation_update current addr src size st = .ok (false, st) ↔
      ¬(st.res.owner = some current ∧ st.res.raddr = addr ∧ st.res.rsize = size)) ∧
    (∀ st', reservation_update current addr src size st = .ok (true, st') →
      st'.mem = memcpyBytes st.mem addr src size ∧ st'.res = resIdle ∧
        st'.pages = st.pages) := by
  obtain ⟨j, hj, hs⟩ := hpow
  have hok : vmArgsOk addr size = true := vmArgsOk_of hj hs h0 hal
  unfold reservation_update
  rw [hok]
  simp only [Bool.not_true, Bool.false_eq_true, if_false]
  by_cases hm : st.res.owner ≠ some current ∨ st.res.raddr ≠ addr ∨ st.res.rsize ≠ size
  · rw [if_pos hm]
    constructor
    · simp only [true_iff, Except.ok.injEq, Prod.mk.injEq, true_and]
      tauto
    · intro st' h
      simp only [Except.ok.injEq, Prod.mk.injEq] at h
      exact absurd h.1 (by simp)
  · rw [if_neg hm]
    push_neg at hm
    constructor
    · simp only [Except.ok.injEq, Prod.mk.injEq]
      constructor
      · rintro ⟨h', -⟩
        exact absurd h' (by simp)
      · intro hc
        exact absurd hm hc
    · intro st' h
      simp only [Except.ok.injEq, Prod.mk.injEq, true_and] at h
      subst h
      refine ⟨rfl, ?_, rfl⟩
      show (_reservation_break addr st.res).2 = resIdle
      unfold _reservation_break
      rw [hm.2.1]
      simp

/-- **C1** counterexample to the claim as stated: `addr = 0` is
`4`-aligned and `size = 4` is a power of two in `[1, 4096]`, the idle
reservation is not owned by thread 7, yet `reservation_update` does not
return false with unchanged state — it throws on the argument check. -/
theorem C1_counterexample :
    ((0:Nat) % 4 = 0 ∧ (4:Nat) = 2^2 ∧ (2:Nat) ≤ 12) ∧
    ¬(reservation_update 7 0 (fun _ => 0) 4 st0 = .ok (false, st0) ↔
      ¬(st0.res.owner = some 7 ∧ st0.res.raddr = 0 ∧ st0.res.rsize = 4)) := by
  refine ⟨by norm_num, fun h => ?_⟩
  have e := h.mpr (by rintro ⟨h1, -, -⟩; exact Option.noConfusion h1)
  rw [show reservation_update 7 0 (fun _ => 0) 4 st0 = .error () from rfl] at e
  exact Except.noConfusion e

/-- **C1** witness: a failing update against the idle reservation at a
valid nonzero address. -/
theorem C1_witness :
    reservation_update 7 65536 (fun _ => 0) 4 st0 = .ok (false, st0) :=
  (C1_reservation_update 7 65536 4 (fun _ => 0) st0 ⟨2, by norm_num⟩ (by norm_num)
    (by norm_num)).1.mpr (by rintro ⟨h1, -, -⟩; exact Option.noConfusion h1)

/-! ## C4 — `check_addr` -/

/-- **C4** (confirmed): for 32-bit `addr` and `0 < size < 2^32`,
`check_addr(addr, size)` is true iff `[addr, addr+size)` stays within
the 32-bit space (`addr + size ≤ 2^32`) and every 4 KiB page meeting
the interval has `page_allocated` set. -/
theorem C4_check_addr (pages : Pages) (addr size : Nat)
    (ha : addr < U32) (hs : 0 < size) (hs2 : size < U32) :
    check_addr addr size pages = true ↔
      (addr + size ≤ U32 ∧
        ∀ p : Nat, p * 4096 < addr + size → addr < (p + 1) * 4096 →
          pages p &&& page_allocated = page_allocated) := by
  unfold check_addr
  by_cases hov : addr + size ≤ U32
  · have hguard : ¬ (u32 (addr + (size - 1)) < addr) := by
      unfold u32 U32 at *
      omega
    rw [if_neg hguard, List.all_eq_true]
    have hlo : addr / 4096 ≤ (addr + size - 1) / 4096 := Nat.div_le_div_right (by omega)
    constructor
    · intro h
      refine ⟨hov, fun p hp1 hp2 => ?_⟩
      have h1 : addr / 4096 ≤ p := by
        have := (Nat.div_lt_iff_lt_mul (by norm_num : 0 < 4096)).mpr hp2
        omega
      have h2 : p ≤ (addr + size - 1) / 4096 := by
        rw [Nat.le_div_iff_mul_le (by norm_num : 0 < 4096)]
        omega
      simpa using h p (mem_range1.mpr (by omega))
    · rintro ⟨-, h⟩ i hi
      rw [mem_range1] at hi
      have h2 : i ≤ (addr + size - 1) / 4096 := by omega
      have h3 : i * 4096 ≤ addr + size - 1 :=
        (Nat.le_div_iff_mul_le (by norm_num : 0 < 4096)).mp h2
      have h4 : addr < (i + 1) * 4096 :=
        (Nat.div_lt_iff_lt_mul (by norm_num : 0 < 4096)).mp (by omega)
      simpa using h i (by omega) h4
  · have hguard : u32 (addr + (size - 1)) < addr := by
      unfold u32 U32 at *
      omega
    rw [if_pos hguard]
    simp [hov]

/-- **C4** witness: one allocated page starting at 0 passes the check. -/
theorem C4_witness : check_addr 0 4096 (fun _ => page_allocated) = true :=
  (C4_check_addr (fun _ => page_allocated) 0 4096 (by norm_num [U32]) (by norm_num)
    (by norm_num [U32])).mpr ⟨by norm_num [U32], fun p h1 h2 => by decide⟩

/-! ## C7 — `reservation_query` after a failed `check_addr` -/

/-- **C7** (amended: the early return value is **false**, not true).
Whenever `check_addr` fails for `addr`, `reservation_query` returns
false without invoking the callback and without touching the
reservation or any other state. -/
theorem C7_reservation_query (addr size : Nat) (iw cb : Bool) (st : VState)
    (h : check_addr addr 1 st.pages = false) :
    reservation_query addr size iw cb st = (false, false, st) := by
  unfold reservation_query
  rw [h]
  rfl

/-- **C7** counterexample to the claim as stated: on an empty page
table `check_addr` fails at `0x10000`, and the query's result is false,
not the claimed true. -/
theorem C7_counterexample :
    check_addr 65536 1 st0.pages = false ∧
    (reservation_query 65536 4 true true st0).1 ≠ true := by
  constructor
  · decide
  · decide

/-- **C7** witness. -/
theorem C7_witness : reservation_query 65536 4 true true st0 = (false, false, st0) :=
  C7_reservation_query 65536 4 true true st0 (by decide)

/-! ## C10 — `reservation_op` and `g_tls_did_break_reservation` -/

/-- **C10** (confirmed): with valid aligned arguments, the
`did_break_reservation` flag left by `reservation_op` is true iff the
reservation immediately before the call was not exactly
`{owner = current, base = addr, size}`; in particular it is true when
no reservation existed at all. -/
theorem C10_reservation_op (current addr size : Nat) (proc : Mem → Mem) (st : VState)
    (hpow : ∃ j, j ≤ 12 ∧ size = 2^j) (hal : addr % size = 0) (h0 : addr ≠ 0) :
    (∀ st' flag, reservation_op current addr size proc st = .ok (st', flag) →
      (flag = true ↔
        ¬(st.res.owner = some current ∧ st.res.raddr = addr ∧ st.res.rsize = size))) ∧
    (st.res.owner = none →
      ∀ st' flag, reservation_op current addr size proc st = .ok (st', flag) →
        flag = true) := by
  obtain ⟨j, hj, hs⟩ := hpow
  have hok : vmArgsOk addr size = true := vmArgsOk_of hj hs h0 hal
  have key : ∀ st' flag, reservation_op current addr size proc st = .ok (st', flag) →
      (flag = true ↔
        ¬(st.res.owner = some current ∧ st.res.raddr = addr ∧ st.res.rsize = size)) := by
    intro st' flag h
    rw [reservation_op_eq current addr size proc st hok] at h
    have hf := (Prod.mk.injEq _ _ _ _).mp (Except.ok.inj h) |>.2
    subst hf
    simp only [Bool.or_eq_true, bne_iff_ne, ne_eq]
    tauto
  refine ⟨key, fun hnone st' flag h => ?_⟩
  rw [key st' flag h]
  rintro ⟨h1, -, -⟩
  rw [hnone] at h1
  exact Option.noConfusion h1

/-- **C10** witness: an op against the idle reservation sets the
flag. -/
theorem C10_witness :
    ¬(st0.res.owner = some 1 ∧ st0.res.raddr = 65536 ∧ st0.res.rsize = 4) :=
  ((C10_reservation_op 1 65536 4 (fun m => m) st0 ⟨2, by norm_num⟩ (by norm_num)
    (by norm_num)).1 _ true rfl).mp rfl

/-! ## Bit-level lemmas for the power-of-two window masks -/

theorem pow_sub_pow_eq_mul {W k : Nat} (hk : k ≤ W) :
    2^W - 2^k = 2^k * (2^(W - k) - 1) := by
  have h2 : 2^k * 2^(W - k) = 2^W := by
    rw [← pow_add]
    congr 1
    omega
  rw [Nat.mul_sub_left_distrib, Nat.mul_one, h2]

theorem testBit_pow_sub_pow {W k i : Nat} (hk : k ≤ W) :
    (2^W - 2^k).testBit i = (decide (k ≤ i) && decide (i < W)) := by
  rw [pow_sub_pow_eq_mul hk, Nat.testBit_mul_pow_two, Nat.testBit_two_pow_sub_one,
    ← Bool.decide_and, ← Bool.decide_and]
  exact decide_eq_decide.mpr (by omega)

theorem land_mask_eq {W k x : Nat} (hk : k ≤ W) (hx : x < 2^W) :
    x &&& (2^W - 2^k) = 2^k * (x / 2^k) := by
  apply Nat.eq_of_testBit_eq
  intro i
  rw [Nat.testBit_and, testBit_pow_sub_pow hk, Nat.testBit_mul_pow_two,
    ← Nat.shiftRight_eq_div_pow, Nat.testBit_shiftRight]
  by_cases h1 : k ≤ i
  · by_cases h2 : i < W
    · simp [h1, h2, show k + (i - k) = i from by omega]
    · have hbit : x.testBit i = false :=
        Nat.testBit_lt_two_pow
          (lt_of_lt_of_le hx (Nat.pow_le_pow_right (by norm_num) (by omega)))
      simp [h1, h2, hbit, show k + (i - k) = i from by omega]
  · simp [h1]

theorem land_mask_self {W k x : Nat} (hk : k ≤ W) (hx : x < 2^W) (hal : x % 2^k = 0) :
    x &&& (2^W - 2^k) = x := by
  rw [land_mask_eq hk hx, Nat.mul_comm, Nat.div_mul_cancel (Nat.dvd_of_mod_eq_zero hal)]

theorem mask_land_mask {W j k : Nat} (hj : j ≤ W) (hk : k ≤ W) :
    (2^W - 2^j) &&& (2^W - 2^k) = 2^W - 2^(max j k) := by
  apply Nat.eq_of_testBit_eq
  intro i
  rw [Nat.testBit_and, testBit_pow_sub_pow hj, testBit_pow_sub_pow hk,
    testBit_pow_sub_pow (Nat.max_le.mpr ⟨hj, hk⟩)]
  rw [← Bool.decide_and, ← Bool.decide_and, ← Bool.decide_and, ← Bool.decide_and]
  refine decide_eq_decide.mpr ?_
  rw [Nat.max_le]
  tauto

theorem xor_mask_eq_zero {K x y : Nat} (hK : K ≤ 32) (hx : x < 2^32) (hy : y < 2^32) :
    ((x ^^^ y) &&& (2^32 - 2^K) = 0) ↔ x / 2^K = y / 2^K := by
  constructor
  · intro h
    rw [← Nat.shiftRight_eq_div_pow, ← Nat.shiftRight_eq_div_pow]
    apply Nat.eq_of_testBit_eq
    intro i
    rw [Nat.testBit_shiftRight, Nat.testBit_shiftRight]
    by_cases hi : K + i < 32
    · have hb := congrArg (fun n => n.testBit (K + i)) h
      simp only [Nat.testBit_and, Nat.testBit_xor, testBit_pow_sub_pow hK,
        Nat.zero_testBit] at hb
      simp only [show K ≤ K + i from by omega, hi, decide_True, Bool.and_true] at hb
      revert hb
      cases x.testBit (K + i) <;> cases y.testBit (K + i) <;> simp
    · have hx' : x.testBit (K + i) = false :=
        Nat.testBit_lt_two_pow
          (lt_of_lt_of_le hx (Nat.pow_le_pow_right (by norm_num) (by omega)))
      have hy' : y.testBit (K + i) = false :=
        Nat.testBit_lt_two_pow
          (lt_of_lt_of_le hy (Nat.pow_le_pow_right (by norm_num) (by omega)))
      rw [hx', hy']
  · intro h
    apply Nat.eq_of_testBit_eq
    intro i
    rw [Nat.testBit_and, Nat.testBit_xor, testBit_pow_sub_pow hK, Nat.zero_testBit]
    by_cases hi : K ≤ i ∧ i < 32
    · have hbit : x.testBit i = y.testBit i := by
        rw [← Nat.shiftRight_eq_div_pow, ← Nat.shiftRight_eq_div_pow] at h
        have := congrArg (fun n => n.testBit (i - K)) h
        simpa [Nat.testBit_shiftRight, show K + (i - K) = i from by omega] using this
      simp [hbit]
    · rw [not_and_or] at hi
      rcases hi with hi | hi
      · simp [hi]
      · simp [hi]

theorem div_pow_eq_iff_overlap {j k a1 a2 : Nat} (hjk : j ≤ k)
    (h1 : a1 % 2^j = 0) (h2 : a2 % 2^k = 0) :
    a1 / 2^k = a2 / 2^k ↔ (a1 < a2 + 2^k ∧ a2 < a1 + 2^j) := by
  have hpk : (0:Nat) < 2^k := Nat.two_pow_pos k
  have hpj : (0:Nat) < 2^j := Nat.two_pow_pos j
  have ha2 : 2^k * (a2 / 2^k) = a2 := Nat.mul_div_cancel' (Nat.dvd_of_mod_eq_zero h2)
  constructor
  · intro h
    have hmod : a1 % 2^k < 2^k := Nat.mod_lt a1 hpk
    have hdm : 2^k * (a1 / 2^k) + a1 % 2^k = a1 := Nat.div_add_mod a1 (2^k)
    have hle : 2^k * (a1 / 2^k) ≤ a1 := by omega
    rw [h, ha2] at hdm hle
    omega
  · rintro ⟨hA, hB⟩
    have ha2a1 : a2 ≤ a1 := by
      by_contra hlt
      push_neg at hlt
      obtain ⟨m1, hm1⟩ := Nat.dvd_of_mod_eq_zero h1
      obtain ⟨m2, hm2⟩ :=
        dvd_trans (pow_dvd_pow 2 hjk) (Nat.dvd_of_mod_eq_zero h2)
      have hlt' : m1 < m2 := by
        have := hm1 ▸ hm2 ▸ hlt
        exact Nat.lt_of_mul_lt_mul_left this
      have : a1 + 2^j ≤ a2 := by
        rw [hm1, hm2, ← Nat.mul_succ]
        exact Nat.mul_le_mul_left _ hlt'
      omega
    have hub : a1 / 2^k < a2 / 2^k + 1 := by
      rw [Nat.div_lt_iff_lt_mul hpk, Nat.add_mul, Nat.one_mul, Nat.mul_comm (a2 / 2^k) _, ha2]
      omega
    have hlb : a2 / 2^k ≤ a1 / 2^k := Nat.div_le_div_right ha2a1
    omega

/-! ## C3 — the waiter-notification overlap rule -/

/-- **C3** (confirmed): for power-of-two sizes in `[1, 4096]` and
size-aligned 32-bit addresses, the candidate test of `_notify_at`
(`((w.addr ^ e.addr) & (e.mask & w.mask)) == 0` with each mask
`~(size-1)`) succeeds exactly when the two half-open windows
`[a1, a1+s1)` and `[a2, a2+s2)` intersect. -/
theorem C3_overlap_rule (t : Option Nat) (p : Option (Except Nat Bool)) (a1 s1 a2 s2 : Nat)
    (ht : t.isSome = true) (h1 : a1 < U32) (h2 : a2 < U32)
    (hp1 : ∃ j, j ≤ 12 ∧ s1 = 2^j) (hp2 : ∃ k, k ≤ 12 ∧ s2 = 2^k)
    (hal1 : a1 % s1 = 0) (hal2 : a2 % s2 = 0) :
    notifyMatch ⟨t, a1, u32not (s1 - 1), p⟩ a2 s2 = true ↔
      (a1 < a2 + s2 ∧ a2 < a1 + s1) := by
  obtain ⟨j, hj, rfl⟩ := hp1
  obtain ⟨k, hk, rfl⟩ := hp2
  have hU : U32 = 2^32 := by norm_num [U32]
  have hbj : (2:Nat)^j ≤ 4096 := by
    calc (2:Nat)^j ≤ 2^12 := Nat.pow_le_pow_right (by norm_num) hj
    _ = 4096 := by norm_num
  have hbk : (2:Nat)^k ≤ 4096 := by
    calc (2:Nat)^k ≤ 2^12 := Nat.pow_le_pow_right (by norm_num) hk
    _ = 4096 := by norm_num
  have hmj : u32not (2^j - 1) = 2^32 - 2^j := by
    unfold u32not
    omega
  have hmk : u32not (2^k - 1) = 2^32 - 2^k := by
    unfold u32not
    omega
  rw [hU] at h1 h2
  unfold notifyMatch
  rw [ht, Bool.true_and, beq_iff_eq]
  simp only [hmj, hmk]
  rw [mask_land_mask (by omega) (by omega), xor_mask_eq_zero (by omega) h1 h2]
  rcases Nat.le_total j k with hjk | hkj
  · rw [Nat.max_eq_left hjk]
    exact div_pow_eq_iff_overlap hjk hal1 hal2
  · rw [Nat.max_eq_right hkj, eq_comm, div_pow_eq_iff_overlap hkj hal2 hal1, and_comm]

/-- **C3** witness: the 4-byte window at `0x20004` meets the 16-byte
window at `0x20000`. -/
theorem C3_witness :
    notifyMatch ⟨some 1, 131072, u32not 15, none⟩ 131076 4 = true :=
  (C3_overlap_rule (some 1) none 131072 16 131076 4 rfl (by norm_num [U32])
    (by norm_num [U32]) ⟨4, by norm_num⟩ ⟨2, by norm_num⟩ (by norm_num)
    (by norm_num)).mpr (by norm_num)

/-! ## C6 — `try_notify` leaves a record no notification matches -/

theorem notifyMatch_inert (t : Option Nat) (p : Option (Except Nat Bool)) (a s : Nat)
    (ha : a < U32) (h0 : a ≠ 0) (hp : ∃ k, k ≤ 12 ∧ s = 2^k) (hal : a % s = 0) :
    notifyMatch ⟨t, 0, 4294967295, p⟩ a s = false := by
  obtain ⟨k, hk, rfl⟩ := hp
  have hU : U32 = 2^32 := by norm_num [U32]
  have hbk : (2:Nat)^k ≤ 4096 := by
    calc (2:Nat)^k ≤ 2^12 := Nat.pow_le_pow_right (by norm_num) hk
    _ = 4096 := by norm_num
  have hmk : u32not (2^k - 1) = 2^32 - 2^k := by
    unfold u32not
    omega
  have h4 : (4294967295 : Nat) = 2^32 - 2^0 := by norm_num
  unfold notifyMatch
  rw [hU] at ha
  simp only [Nat.zero_xor, hmk, h4]
  rw [mask_land_mask (by omega) (by norm_num), Nat.max_eq_left (Nat.zero_le k),
    land_mask_self (by omega) ha hal]
  simp [h0]

/-- **C6** (amended: when the predicate throws, `try_notify` returns
true but installs the exception-rethrowing replacement instead of a
null predicate).  Whenever `try_notify` returns true, the record has
`addr = 0` and `mask = ~0`; the predicate is null when it returned
true, and is the rethrowing replacement when it threw; in both cases no
valid later notification event can match the record. -/
theorem C6_try_notify (w : waiter_t) (h : (try_notify w).2 = true) :
    (try_notify w).1.addr = 0 ∧ (try_notify w).1.mask = 4294967295 ∧
    ((w.pred = some (.ok true) ∧ (try_notify w).1.pred = none) ∨
      (∃ e, w.pred = some (.error e) ∧ (try_notify w).1.pred = some (.error e))) ∧
    (∀ a s, a < U32 → a ≠ 0 → (∃ k, k ≤ 12 ∧ s = 2^k) → a % s = 0 →
      notifyMatch (try_notify w).1 a s = false) := by
  rcases hpred : w.pred with - | r
  · rw [show try_notify w = (w, false) from by rw [try_notify, hpred]] at h
    exact absurd h (by simp)
  · rcases r with e | b
    · rw [show try_notify w
          = ({ w with pred := some (.error e), addr := 0, mask := 4294967295 }, true)
        from by rw [try_notify, hpred]]
      exact ⟨rfl, rfl, Or.inr ⟨e, rfl, rfl⟩,
        fun a s ha h0 hp hal => notifyMatch_inert _ _ a s ha h0 hp hal⟩
    · rcases b with - | -
      · rw [show try_notify w = (w, false) from by rw [try_notify, hpred]] at h
        exact absurd h (by simp)
      · rw [show try_notify w
            = ({ w with pred := none, addr := 0, mask := 4294967295 }, true)
          from by rw [try_notify, hpred]]
        exact ⟨rfl, rfl, Or.inl ⟨rfl, rfl⟩,
          fun a s ha h0 hp hal => notifyMatch_inert _ _ a s ha h0 hp hal⟩

/-- **C6** counterexample to the claim as stated: a predicate that
throws makes `try_notify` return true, yet the record's predicate
afterwards is the installed replacement, not null. -/
theorem C6_counterexample :
    (try_notify ⟨some 1, 65536, u32not 15, some (.error 5)⟩).2 = true ∧
    (try_notify ⟨some 1, 65536, u32not 15, some (.error 5)⟩).1.pred ≠ none := by
  refine ⟨rfl, fun h => ?_⟩
  rw [show (try_notify ⟨some 1, 65536, u32not 15, some (.error 5)⟩).1.pred
      = some (.error 5) from rfl] at h
  exact Option.noConfusion h

/-- **C6** witness: a satisfied waiter is left inert and unmatched. -/
theorem C6_witness :
    (try_notify ⟨some 1, 65536, u32not 15, some (.ok true)⟩).1.addr = 0 ∧
    notifyMatch (try_notify ⟨some 1, 65536, u32not 15, some (.ok true)⟩).1 65536 16
      = false := by
  have h := C6_try_notify ⟨some 1, 65536, u32not 15, some (.ok true)⟩ rfl
  exact ⟨h.1, h.2.2.2 65536 16 (by norm_num [U32]) (by norm_num) ⟨4, by norm_num⟩
    (by norm_num)⟩

/-! ## C2 — `page_protect` -/

theorem and_compl_and_self (a b : Nat) : a &&& (255 ^^^ (a &&& b)) = a &&& (255 ^^^ b) := by
  apply Nat.eq_of_testBit_eq
  intro i
  simp only [Nat.testBit_and, Nat.testBit_xor]
  cases ha : a.testBit i <;> cases hb : b.testBit i <;> simp

theorem protectByte_eq (set clear old : Nat) :
    protectByte set clear old =
      ((old ||| (set &&& (255 ^^^ clear))) &&& (255 ^^^ (clear &&& (255 ^^^ set))))
        ^^^ (set &&& clear) := by
  simp only [protectByte]
  rw [and_compl_and_self set clear, Nat.and_comm set clear, and_compl_and_self clear set]

theorem protect_fold_pages (set clear : Nat) (n : Nat) :
    ∀ (lo : Nat) (pages : Pages) (res : ResState) (j : Nat),
      ((List.range' lo n).foldl (protectStep set clear) (pages, res)).1 j
        = if lo ≤ j ∧ j < lo + n then protectByte set clear (pages j) else pages j := by
  induction n with
  | zero =>
    intro lo pages res j
    rw [if_neg (by omega)]
    rfl
  | succ n ih =>
    intro lo pages res j
    rw [List.range'_succ, List.foldl_cons]
    rw [show protectStep set clear (pages, res) lo
        = (setP pages lo (protectByte set clear (pages lo)),
           (_reservation_break (lo * 4096) res).2) from rfl]
    rw [ih (lo + 1) _ _ j]
    by_cases hj : j = lo
    · rw [if_neg (show ¬(lo + 1 ≤ j ∧ j < lo + 1 + n) from by omega),
        if_pos (show lo ≤ j ∧ j < lo + (n + 1) from by omega)]
      unfold setP
      simp [hj]
    · by_cases hr : lo + 1 ≤ j ∧ j < lo + 1 + n
      · rw [if_pos hr, if_pos (show lo ≤ j ∧ j < lo + (n + 1) from by omega)]
        unfold setP
        simp [hj]
      · rw [if_neg hr, if_neg (show ¬(lo ≤ j ∧ j < lo + (n + 1)) from by omega)]
        unfold setP
        simp [hj]

/-- **C2** (amended in two places: the transactional test is
`(flags & (test | page_allocated)) == (test | page_allocated)` — the
code ORs the allocated bit into the test — and on success each covered
byte becomes `((old | (set & ~clear)) & ~(clear & ~set)) ^ (set &
clear)`, i.e. the `set ∩ clear` bits toggle the old value rather than
follow `((old | set) & ~clear) ^ (set & clear)`).  The complement `~`
is the 8-bit one (`255 ^^^ ·`); page bytes are u8, hence the
`< 256` hypothesis.  `page_protect(test, 0, 0)` never mutates. -/
theorem C2_page_protect (st : VState) (addr size test set clear : Nat)
    (hsz : size ≠ 0) (ha4 : addr % 4096 = 0) (hs4 : size % 4096 = 0)
    (hbytes : ∀ i, st.pages i < 256) :
    (page_protect addr size test set clear st = (false, st) ↔
      ∃ i, addr / 4096 ≤ i ∧ i < addr / 4096 + size / 4096 ∧
        (st.pages i &&& (test ||| page_allocated)) ≠ (test ||| page_allocated)) ∧
    (∀ st', page_protect addr size test set clear st = (true, st') →
      (∀ i, addr / 4096 ≤ i → i < addr / 4096 + size / 4096 →
        st'.pages i = ((st.pages i ||| (set &&& (255 ^^^ clear)))
          &&& (255 ^^^ (clear &&& (255 ^^^ set)))) ^^^ (set &&& clear)) ∧
      (∀ i, i < addr / 4096 ∨ addr / 4096 + size / 4096 ≤ i →
        st'.pages i = st.pages i)) ∧
    (page_protect addr size test 0 0 st).2 = st := by
  have hfail : ∀ (h : pagesFailTest addr size test st.pages = true) (s c : Nat),
      page_protect addr size test s c st = (false, st) := by
    intro h s c
    unfold page_protect
    rw [h]
    rfl
  refine ⟨?_, ?_, ?_⟩
  · constructor
    · intro h
      by_cases hf : pagesFailTest addr size test st.pages = true
      · unfold pagesFailTest at hf
        rw [List.any_eq_true] at hf
        obtain ⟨i, hmem, hp⟩ := hf
        rw [mem_range1] at hmem
        exact ⟨i, hmem.1, by omega, by simpa using hp⟩
      · exfalso
        unfold page_protect at h
        rw [if_neg hf] at h
        by_cases hq : ((set &&& clear) == 0 && set == 0 && clear == 0) = true
        · rw [if_pos hq] at h
          exact absurd (congrArg Prod.fst h) (by simp)
        · rw [if_neg hq] at h
          exact absurd (congrArg Prod.fst h) (by simp)
    · rintro ⟨i, h1, h2, hp⟩
      refine hfail ?_ set clear
      unfold pagesFailTest
      rw [List.any_eq_true]
      exact ⟨i, mem_range1.mpr ⟨h1, by omega⟩, by simpa using hp⟩
  · intro st' h
    by_cases hf : pagesFailTest addr size test st.pages = true
    · rw [hfail hf set clear] at h
      exact absurd (congrArg Prod.fst h) (by simp)
    · unfold page_protect at h
      rw [if_neg hf] at h
      by_cases hq : ((set &&& clear) == 0 && set == 0 && clear == 0) = true
      · have hsc : set = 0 ∧ clear = 0 := by
          simp only [Bool.and_eq_true, beq_iff_eq] at hq
          exact ⟨hq.1.2, hq.2⟩
        rw [if_pos hq] at h
        have hst : st' = st := by
          have := congrArg Prod.snd h
          exact this.symm
        rw [hst]
        obtain ⟨rfl, rfl⟩ : set = 0 ∧ clear = 0 := hsc
        constructor
        · intro i _ _
          have h255 : st.pages i &&& 255 = st.pages i := by
            have hm := Nat.and_pow_two_sub_one_eq_mod (st.pages i) 8
            rw [show (2:Nat)^8 - 1 = 255 from by norm_num] at hm
            rw [hm, Nat.mod_eq_of_lt (by simpa using hbytes i)]
          simp [h255]
        · intro i _
          rfl
      · rw [if_neg hq] at h
        have hst : st' = { st with
            pages := ((List.range' (addr / 4096) (size / 4096)).foldl
              (protectStep set clear) (st.pages, st.res)).1
            res := ((List.range' (addr / 4096) (size / 4096)).foldl
              (protectStep set clear) (st.pages, st.res)).2 } := by
          have := congrArg Prod.snd h
          exact this.symm
        rw [hst]
        constructor
        · intro i hi1 hi2
          show ((List.range' (addr / 4096) (size / 4096)).foldl
            (protectStep set clear) (st.pages, st.res)).1 i = _
          rw [protect_fold_pages set clear (size / 4096) (addr / 4096) st.pages st.res i,
            if_pos ⟨hi1, by omega⟩, protectByte_eq]
        · intro i hi
          show ((List.range' (addr / 4096) (size / 4096)).foldl
            (protectStep set clear) (st.pages, st.res)).1 i = _
          rw [protect_fold_pages set clear (size / 4096) (addr / 4096) st.pages st.res i,
            if_neg (by omega)]
  · by_cases hf : pagesFailTest addr size test st.pages = true
    · rw [hfail hf 0 0]
    · unfold page_protect
      rw [if_neg hf, if_pos (by decide)]

/-- **C2** counterexample to the claim as stated, in its two flawed
places: (a) with `test = 0` every page passes `(flags & test) == test`,
yet on an unallocated page table the call returns false (the code also
requires `page_allocated`); (b) with `set = clear = readable` on a byte
`129 = allocated|readable`, the code toggles the bit to `128`, while
the claimed formula `((old | set) & ~clear) ^ (set & clear)` yields
`129`. -/
theorem C2_counterexample :
    ((0:Nat) &&& 0) = 0 ∧
    page_protect 0 4096 0 0 0 st0 = (false, st0) ∧
    (page_protect 0 4096 0 1 1 st129).2.pages 0 = 128 ∧
    ((129 ||| 1) &&& (255 ^^^ 1)) ^^^ (1 &&& 1) = 129 := by
  refine ⟨by decide, rfl, ?_, by decide⟩
  rw [show (page_protect 0 4096 0 1 1 st129).2.pages 0 = 128 from rfl]

/-- **C2** witness: the transactional scan fails on an empty page
table. -/
theorem C2_witness : page_protect 0 4096 0 0 0 st0 = (false, st0) :=
  (C2_page_protect st0 0 4096 0 0 0 (by norm_num) (by norm_num) (by norm_num)
    (fun i => by norm_num [st0, pages0])).1.mpr ⟨0, by norm_num, by norm_num, by decide⟩

/-! ## C9 — `get(any, addr)` and null registry slots -/

/-- **C9** (code bug): under the PSV layout, `get(any, addr)` for an
address outside the two mapped blocks reaches the null video slot and
reads `block->addr` through the null handle (modelled `.error ()`),
instead of skipping it and returning a null handle; an address inside
the RAM block is found before any null slot is reached. -/
theorem C9_get_any_psv :
    vm_get_any psv_locations 0 = .error () ∧
    vm_get_any psv_locations 2164260869 = .ok (some ⟨2164260864, 268435456⟩) :=
  ⟨rfl, rfl⟩

/-! ## C8 — `falloc` range containment -/

/-- **C8** (amended twice: the containment comparison is
`addr + size - 1 >= base + bsize - 1` in wrapping u32 arithmetic, so
(a) for requests whose page-rounded range end does not wrap
(`addr + size' ≤ 2^32`) the containment check rejects exactly those
ranges not lying entirely within `[base, base + bsize - 1)` — in
particular a page-aligned range ending exactly at `base + bsize` IS
rejected — and (b) a request whose u32 range end wraps past 2^32 can
pass the containment check even though it is not contained: on the PS3
main block, `falloc(0xFFFFF000, 0x2000)` is not rejected by it). -/
theorem C8_falloc (baddr bsize addr size : Nat)
    (hb : baddr + bsize ≤ U32) (hbpos : 0 < bsize) :
    (addr + alignUp size 4096 ≤ U32 →
      (fallocRejects baddr bsize addr (alignUp size 4096) = false ↔
        (0 < alignUp size 4096 ∧ alignUp size 4096 ≤ bsize ∧ baddr ≤ addr ∧
          addr + alignUp size 4096 < baddr + bsize))) ∧
    (addr + alignUp size 4096 = baddr + bsize →
      fallocRejects baddr bsize addr (alignUp size 4096) = true) ∧
    (∀ pages bs, fallocRejects baddr bsize addr (alignUp size 4096) = true →
      block_t.falloc baddr bsize addr size pages bs = .ok (0, pages, bs)) ∧
    (fallocRejects 65536 536805376 4294963200 (alignUp 8192 4096) = false ∧
      65536 + 536805376 < 4294963200 + alignUp 8192 4096) := by
  refine ⟨?_, ?_, ?_, by decide, by decide⟩
  · intro hns
    rw [show (fallocRejects baddr bsize addr (alignUp size 4096) = false)
        ↔ ¬(fallocRejects baddr bsize addr (alignUp size 4096) = true) from by simp]
    simp only [fallocRejects, Bool.or_eq_true, beq_iff_eq, decide_eq_true_eq, u32, U32]
    unfold U32 at hb hns
    omega
  · intro hend
    simp only [fallocRejects, Bool.or_eq_true, beq_iff_eq, decide_eq_true_eq, u32, U32]
    unfold U32 at hb
    omega
  · intro pages bs h
    simp only [block_t.falloc]
    rw [h]
    rfl

/-- **C8** counterexample to the claim as stated: the one-page block
`[0x10000, 0x11000)` and the page-aligned request for exactly that
range — it lies entirely within `[base, base + bsize)`, the pages are
free and capacity suffices, yet the containment check rejects it and
`falloc` returns 0. -/
theorem C8_counterexample :
    alignUp 4096 4096 = 4096 ∧
    fallocRejects 65536 4096 65536 4096 = true ∧
    block_t.falloc 65536 4096 65536 4096 pages0 bs0 = .ok (0, pages0, bs0) := by
  refine ⟨by decide, by decide, rfl⟩

/-- **C8** witness: a rejected request propagates a 0 return from
`falloc`, and a contained non-boundary request passes the containment
check. -/
theorem C8_witness :
    block_t.falloc 65536 4096 65536 4096 pages0 bs0 = .ok (0, pages0, bs0) ∧
    fallocRejects 65536 8192 65536 (alignUp 4096 4096) = false :=
  ⟨(C8_falloc 65536 4096 65536 4096 (by norm_num [U32]) (by norm_num)).2.2.1
      pages0 bs0 (by decide),
    ((C8_falloc 65536 8192 65536 4096 (by norm_num [U32]) (by norm_num)).1
      (by decide)).mpr (by decide)⟩

/-! ## C5 — `block_t::alloc` first-fit scan -/

theorem allocLoop_succ_eq (baddr bsize size align n addr : Nat) (pages : Pages)
    (bs : BState) :
    allocLoop baddr bsize size align (n + 1) addr pages bs =
      (if addr < u32 (baddr + bsize + (U32 - 1)) then
        match block_t.try_alloc baddr bsize addr size pages bs with
        | .error e => .error e
        | .ok (true, p', bs') => .ok (some (addr, p', bs'))
        | .ok (false, p', bs') =>
          if u32 (bs'.used + size) > bsize then .ok (some (0, p', bs'))
          else allocLoop baddr bsize size align n (u32 (addr + align)) p' bs'
      else .ok (some (0, pages, bs))) := rfl

theorem try_alloc_fail {baddr bsize addr size : Nat} {pages : Pages} {bs : BState}
    {p : Pages} {b : BState}
    (h : block_t.try_alloc baddr bsize addr size pages bs = .ok (false, p, b)) :
    p = pages ∧ b = bs := by
  unfold block_t.try_alloc at h
  split at h
  · simp only [Except.ok.injEq, Prod.mk.injEq] at h
    exact ⟨h.2.1.symm, h.2.2.symm⟩
  · split at h
    · exact absurd h (by simp)
    · split at h
      · simp only [Except.ok.injEq, Prod.mk.injEq] at h
        exact ⟨h.2.1.symm, h.2.2.symm⟩
      · split at h
        · exact absurd h (by simp)
        · simp only [Except.ok.injEq, Prod.mk.injEq] at h
          exact absurd h.1 (by simp)

theorem try_alloc_cap (baddr bsize addr size : Nat) (pages : Pages) (bs : BState)
    (hused : bs.used ≤ bsize) (hnw : bs.used + size < U32)
    (hcap : bs.used + size > bsize) :
    block_t.try_alloc baddr bsize addr size pages bs = .ok (false, pages, bs) := by
  unfold block_t.try_alloc
  by_cases h1 : (pageRangeIncl addr size).any (fun i => pages i != 0) = true
  · rw [if_pos h1]
  · rw [if_neg h1, if_neg (show ¬ bs.used > bsize from by omega),
      if_pos (show u32 (bs.used + size) > bsize from by rw [u32_id hnw]; exact hcap)]

theorem allocLoop_mono (baddr bsize size align : Nat) :
    ∀ n m addr (pages : Pages) (bs : BState) r, n ≤ m →
      allocLoop baddr bsize size align n addr pages bs = .ok (some r) →
      allocLoop baddr bsize size align m addr pages bs = .ok (some r) := by
  intro n
  induction n with
  | zero =>
    intro m addr pages bs r _ h
    exact absurd (Except.ok.inj h) (by simp)
  | succ n ih =>
    intro m addr pages bs r hm h
    obtain ⟨m', rfl⟩ : ∃ m', m = m' + 1 := ⟨m - 1, by omega⟩
    rw [allocLoop_succ_eq] at h ⊢
    by_cases hlt : addr < u32 (baddr + bsize + (U32 - 1))
    · rw [if_pos hlt] at h ⊢
      rcases hta : block_t.try_alloc baddr bsize addr size pages bs with e | ⟨fl, pa, ba⟩
      · rw [hta] at h
        exact absurd h (by simp)
      · rw [hta] at h
        cases fl
        · dsimp only at h ⊢
          by_cases hcap : u32 (ba.used + size) > bsize
          · rw [if_pos hcap] at h ⊢
            exact h
          · rw [if_neg hcap] at h ⊢
            exact ih m' _ _ _ _ (by omega) h
        · dsimp only at h ⊢
          exact h
    · rw [if_neg hlt] at h ⊢
      exact h

theorem allocLoop_first_fit (baddr bsize size align : Nat) :
    ∀ n addr (pages : Pages) (bs : BState) r (p' : Pages) (b' : BState),
      addr < U32 →
      allocLoop baddr bsize size align n addr pages bs = .ok (some (r, p', b')) →
      r ≠ 0 →
      block_t.try_alloc baddr bsize r size pages bs = .ok (true, p', b') ∧
      (∃ t, r = u32 (addr + t * align) ∧
        ∀ t', t' < t →
          block_t.try_alloc baddr bsize (u32 (addr + t' * align)) size pages bs
            = .ok (false, pages, bs)) := by
  intro n
  induction n with
  | zero =>
    intro addr pages bs r p' b' haddr h hr
    exact absurd (Except.ok.inj h) (by simp)
  | succ n ih =>
    intro addr pages bs r p' b' haddr h hr
    rw [allocLoop_succ_eq] at h
    by_cases hlt : addr < u32 (baddr + bsize + (U32 - 1))
    · rw [if_pos hlt] at h
      rcases hta : block_t.try_alloc baddr bsize addr size pages bs with e | ⟨fl, pa, ba⟩
      · rw [hta] at h
        exact absurd h (by simp)
      · rw [hta] at h
        cases fl
        · dsimp only at h
          obtain ⟨hpa, hba⟩ : pa = pages ∧ ba = bs := try_alloc_fail hta
          rw [hpa, hba] at h
          rw [hpa, hba] at hta
          by_cases hcap : u32 (bs.used + size) > bsize
          · rw [if_pos hcap] at h
            simp only [Except.ok.injEq, Option.some.injEq, Prod.mk.injEq] at h
            exact absurd h.1.symm hr
          · rw [if_neg hcap] at h
            obtain ⟨hsucc, t, hteq, hfail⟩ :=
              ih (u32 (addr + align)) pages bs r p' b' (u32_lt _) h hr
            refine ⟨hsucc, t + 1, ?_, ?_⟩
            · rw [hteq, u32_add_left]
              congr 1
              ring
            · intro t' ht'
              cases t' with
              | zero =>
                rw [show u32 (addr + 0 * align) = addr from by
                  rw [Nat.zero_mul, Nat.add_zero]; exact u32_id haddr]
                exact hta
              | succ t'' =>
                rw [show u32 (addr + (t'' + 1) * align)
                    = u32 (u32 (addr + align) + t'' * align) from by
                  rw [u32_add_left]; congr 1; ring]
                exact hfail t'' (by omega)
        · dsimp only at h
          simp only [Except.ok.injEq, Option.some.injEq, Prod.mk.injEq] at h
          obtain ⟨rfl, rfl, rfl⟩ := h
          refine ⟨hta, 0, ?_, fun t' ht' => absurd ht' (by omega)⟩
          rw [Nat.zero_mul, Nat.add_zero]
          exact (u32_id haddr).symm
    · rw [if_neg hlt] at h
      simp only [Except.ok.injEq, Option.some.injEq, Prod.mk.injEq] at h
      exact absurd h.1.symm hr

/-- **C5** (confirmed): `block_t::alloc` page-rounds the size and scans
the candidates `u32(align(base, align) + t·align)` in order (the u32
step wraps for blocks reaching the top of the address space, exactly
as in the source), returning the first candidate in scan order where
`try_alloc` succeeds — every earlier candidate failed leaving the
state untouched — and returns 0 when the u32 sum `used + size` exceeds
the capacity (the capacity part is stated for `used + size < 2^32`,
where the code's wrapping comparison coincides with the arithmetic
one).  Concretely, on the PS3 main block (base `0x10000`, capacity
`0x1FFF0000`): `alloc(0x1000, 0x1000)` returns `0x10000`, a second call
returns `0x11000`, and after `dealloc(0x10000)` the same call returns
`0x10000` again. -/
theorem C5_block_alloc :
    (block_t.alloc ps3_main_base ps3_main_size 4096 4096 pages0 bs0
       = .ok (some (65536, setP pages0 16 131, ⟨4096, [(65536, 4096)]⟩)) ∧
     block_t.alloc ps3_main_base ps3_main_size 4096 4096 (setP pages0 16 131)
         ⟨4096, [(65536, 4096)]⟩
       = .ok (some (69632, setP (setP pages0 16 131) 17 131,
           ⟨8192, [(69632, 4096), (65536, 4096)]⟩)) ∧
     block_t.dealloc 65536 (setP (setP pages0 16 131) 17 131)
         ⟨8192, [(69632, 4096), (65536, 4096)]⟩ resIdle
       = .ok (true, setP (setP (setP pages0 16 131) 17 131) 16 0,
           ⟨4096, [(69632, 4096)]⟩, resIdle) ∧
     block_t.alloc ps3_main_base ps3_main_size 4096 4096
         (setP (setP (setP pages0 16 131) 17 131) 16 0) ⟨4096, [(69632, 4096)]⟩
       = .ok (some (65536, setP (setP (setP (setP pages0 16 131) 17 131) 16 0) 16 131,
           ⟨8192, [(65536, 4096), (69632, 4096)]⟩))) ∧
    (∀ baddr bsize size align a (pages : Pages) (bs : BState) r (p' : Pages)
        (b' : BState),
      12 ≤ a → a ≤ 31 → align = 2^a →
      block_t.alloc baddr bsize size align pages bs = .ok (some (r, p', b')) →
      r ≠ 0 →
      block_t.try_alloc baddr bsize r (alignUp size 4096) pages bs = .ok (true, p', b') ∧
      (∃ t, r = u32 (alignUp baddr align + t * align) ∧
        ∀ t', t' < t →
          block_t.try_alloc baddr bsize (u32 (alignUp baddr align + t' * align))
            (alignUp size 4096) pages bs = .ok (false, pages, bs))) ∧
    (∀ baddr bsize size align a (pages : Pages) (bs : BState),
      12 ≤ a → a ≤ 31 → align = 2^a →
      bs.used ≤ bsize → bs.used + alignUp size 4096 < U32 →
      bsize < bs.used + alignUp size 4096 →
      alignUp size 4096 ≠ 0 → alignUp size 4096 ≤ bsize →
      block_t.alloc baddr bsize size align pages bs = .ok (some (0, pages, bs))) := by
  refine ⟨⟨?_, ?_, rfl, ?_⟩, ?_, ?_⟩
  · exact allocLoop_mono 65536 536805376 4096 4096 1 1048576 65536 pages0 bs0
      _ (by norm_num) rfl
  · exact allocLoop_mono 65536 536805376 4096 4096 2 1048576 65536
      (setP pages0 16 131) ⟨4096, [(65536, 4096)]⟩ _ (by norm_num) rfl
  · exact allocLoop_mono 65536 536805376 4096 4096 1 1048576 65536
      (setP (setP (setP pages0 16 131) 17 131) 16 0) ⟨4096, [(69632, 4096)]⟩
      _ (by norm_num) rfl
  · intro baddr bsize size align a pages bs r p' b' ha12 ha31 halign h hr
    subst halign
    have hfp : floorPow2 (2^a) = 2^a := floorPow2_pow (by omega)
    have h4096 : 4096 ≤ 2^a := by
      calc (4096:Nat) = 2^12 := by norm_num
      _ ≤ 2^a := Nat.pow_le_pow_right (by norm_num) ha12
    simp only [block_t.alloc] at h
    rw [if_neg (show ¬((2^a < 4096 || 2^a != floorPow2 (2^a)) = true) from by
      simp [hfp, Nat.not_lt.mpr h4096])] at h
    by_cases hg2 : (alignUp size 4096 == 0 || alignUp size 4096 > bsize) = true
    · rw [if_pos hg2] at h
      simp only [Except.ok.injEq, Option.some.injEq, Prod.mk.injEq] at h
      exact absurd h.1.symm hr
    · rw [if_neg hg2] at h
      exact allocLoop_first_fit baddr bsize (alignUp size 4096) (2^a) (U32 / 2^a)
        (alignUp baddr (2^a)) pages bs r p' b' (u32_lt _) h hr
  · intro baddr bsize size align a pages bs ha12 ha31 halign hused hnw hcap hsz hle
    subst halign
    have hfp : floorPow2 (2^a) = 2^a := floorPow2_pow (by omega)
    have h4096 : 4096 ≤ 2^a := by
      calc (4096:Nat) = 2^12 := by norm_num
      _ ≤ 2^a := Nat.pow_le_pow_right (by norm_num) ha12
    simp only [block_t.alloc]
    rw [if_neg (show ¬((2^a < 4096 || 2^a != floorPow2 (2^a)) = true) from by
      simp [hfp, Nat.not_lt.mpr h4096]),
      if_neg (show ¬((alignUp size 4096 == 0 || alignUp size 4096 > bsize) = true) from by
        simp [hsz, Nat.not_lt.mpr hle])]
    obtain ⟨f, hf⟩ : ∃ f, U32 / 2^a = f + 1 := by
      have h1 : 1 ≤ U32 / 2^a := by
        rw [Nat.le_div_iff_mul_le (Nat.two_pow_pos a)]
        calc 1 * 2^a = 2^a := Nat.one_mul _
        _ ≤ 2^32 := Nat.pow_le_pow_right (by norm_num) (by omega)
        _ = U32 := by norm_num [U32]
      exact ⟨U32 / 2^a - 1, by omega⟩
    rw [hf, allocLoop_succ_eq]
    by_cases hlt : alignUp baddr (2^a) < u32 (baddr + bsize + (U32 - 1))
    · rw [if_pos hlt,
        try_alloc_cap baddr bsize (alignUp baddr (2^a)) (alignUp size 4096) pages bs
          hused hnw hcap]
      dsimp only
      rw [if_pos (show u32 (bs.used + alignUp size 4096) > bsize from by
        rw [u32_id hnw]; exact hcap)]
    · rw [if_neg hlt]

/-- **C5** witness: the first-fit part applied to the PS3 main block's
first allocation, and the capacity part applied to a full block. -/
theorem C5_witness :
    block_t.try_alloc 65536 536805376 65536 (alignUp 4096 4096) pages0 bs0
      = .ok (true, setP pages0 16 131, ⟨4096, [(65536, 4096)]⟩) ∧
    block_t.alloc 65536 536805376 4096 4096 pages0 ⟨536805376, [(65536, 536805376)]⟩
      = .ok (some (0, pages0, ⟨536805376, [(65536, 536805376)]⟩)) := by
  constructor
  · exact (C5_block_alloc.2.1 65536 536805376 4096 4096 12 pages0 bs0 65536 _ _
      (by norm_num) (by norm_num) (by norm_num) C5_block_alloc.1.1
      (by norm_num)).1
  · exact C5_block_alloc.2.2 65536 536805376 4096 4096 12 pages0
      ⟨536805376, [(65536, 536805376)]⟩ (by norm_num) (by norm_num) (by norm_num)
      (by norm_num) (by decide) (by decide) (by decide) (by decide)

end VMSpec
